import Mathlib

/-!
# GraphQL resolvers and subscription fan-out of `frontend/pubsub.js`

A shallow embedding of the resolver map of `src/frontend/pubsub.js`:
the Week and Task mutation resolvers, the three subscription resolvers, the
topic constants and the return types declared in `typeDefs`.

The resolvers run against two collaborators whose code is not part of the
file: the document store reached through the Mongoose models `Week` and `Task`
(`./models/week`, `./models/task`) and the in-process event bus `pubsub`.
Both are modelled here as explicit components of a `World` that every
resolver transforms; a resolver that throws keeps the world it had reached
when the exception was raised, so the order of store write and publish is
observable.
-/

namespace Pubsub

/-! ## Values, argument objects and documents -/

/-- Scalar values a GraphQL argument or a document field can hold. -/
inductive Value where
  | null
  | str (s : String)
  | int (n : Int)
  deriving DecidableEq, Repr

/-- A JavaScript object with scalar values: the `args` of a resolver and the
field part of a stored document.  A key that is not listed is `undefined`. -/
abbrev Obj := List (String × Value)

/-- Store-assigned identifiers. -/
abbrev ID := Nat

/-- A stored document: its identifier and its fields. -/
structure Doc where
  id : ID
  fields : Obj
  deriving DecidableEq, Repr

/-- The object handed to `pubsub.publish`: keys bound to a document or to
`null` (`none`). -/
abbrev Envelope := List (String × Option Doc)

/-- Write `k: v` into an object, replacing the binding of `k` when present. -/
def setField : Obj → String → Value → Obj
  | [], k, v => [(k, v)]
  | (k', v') :: rest, k, v =>
    if k' = k then (k, v) :: rest else (k', v') :: setField rest k v

/-- Copy every binding of `source` into `target`; the first binding of a key
in `source` is the one that is kept. -/
def assign (target source : Obj) : Obj :=
  source.foldr (fun p acc => setField acc p.1 p.2) target

/-! ## Errors and the world the resolvers run in -/

/-- The ways a mutation can fail. -/
inductive Err where
  | storeUnavailable
  | validationFailure
  | nonNullViolation (field : String)
  deriving DecidableEq, Repr

/-- The two Mongoose models required by the file. -/
inductive Model where
  | Week
  | Task
  deriving DecidableEq, Repr

/-- Modelled from the spec: the document store behind the Mongoose models
`Week` and `Task` (`./models/week`, `./models/task`, absent from the sources).
It holds one collection per entity kind, may be unreachable, and rejects on
create a document lacking one of the model's required paths; which paths are
required is a parameter. -/
structure Store where
  available : Bool
  weekRequired : List String
  taskRequired : List String
  weeks : List Doc
  tasks : List Doc
  deriving DecidableEq, Repr

/-- The collection of a model. -/
def Store.docs (s : Store) : Model → List Doc
  | .Week => s.weeks
  | .Task => s.tasks

/-- The required paths of a model. -/
def Store.required (s : Store) : Model → List String
  | .Week => s.weekRequired
  | .Task => s.taskRequired

/-- Replace the collection of a model. -/
def Store.setDocs (s : Store) : Model → List Doc → Store
  | .Week, ds => { s with weeks := ds }
  | .Task, ds => { s with tasks := ds }

/-- One subscriber of the event bus: the topics it listens on and the events
pushed to it and not yet pulled, oldest first. -/
structure Listener where
  topics : List String
  queue : List Envelope
  deriving DecidableEq, Repr

/-- Modelled from the spec: the event bus (`new PubSub()` of the
`graphql-subscriptions` package, whose code is absent from the sources), as
section 4.1 describes it.  `listeners` are the registered subscribers in
registration order; `published` records every `publish` call, oldest first. -/
structure PubSub where
  listeners : List Listener
  published : List (String × Envelope)
  deriving DecidableEq, Repr

deriving instance DecidableEq for Except

/-- Everything a resolver can read or change. -/
structure World where
  store : Store
  nextId : ID
  pubsub : PubSub
  deriving DecidableEq, Repr

/-- A computation that may throw: it returns a value or an error together with
the world reached. -/
def M (α : Type) : Type := World → Except Err α × World

/-- Return a value without touching the world. -/
def M.pure {α : Type} (a : α) : M α := fun w => (.ok a, w)

/-- Run `m`, then `f` on its value; an error of `m` skips `f`. -/
def M.bind {α β : Type} (m : M α) (f : α → M β) : M β := fun w =>
  match m w with
  | (.ok a, w') => f a w'
  | (.error e, w') => (.error e, w')

instance : Monad M where
  pure := M.pure
  bind := M.bind

/-! ## The event bus -/

/-- Hand one event to a listener: it is queued when the listener listens on
the topic, ignored otherwise. -/
def Listener.deliver (trigger : String) (payload : Envelope) (l : Listener) : Listener :=
  if trigger ∈ l.topics then { l with queue := l.queue ++ [payload] } else l

/-- Modelled from the spec: `publish(topic, payload)` delivers the payload to
every listener currently registered on the topic; with no listener the event
is discarded. -/
def PubSub.publish (ps : PubSub) (trigger : String) (payload : Envelope) : PubSub :=
  { listeners := ps.listeners.map (Listener.deliver trigger payload)
    published := ps.published ++ [(trigger, payload)] }

/-- Modelled from the spec: `subscribe(topics)` registers a new listener that
sees only the events published from now on. -/
def PubSub.asyncIterator (ps : PubSub) (triggers : List String) : PubSub :=
  { ps with listeners := ps.listeners ++ [{ topics := triggers, queue := [] }] }

/-- Pull the oldest pending event of one listener, if any. -/
def pullAt : List Listener → Nat → Option Envelope × List Listener
  | [], _ => (none, [])
  | l :: ls, 0 =>
    match l.queue with
    | [] => (none, l :: ls)
    | e :: q => (some e, { l with queue := q } :: ls)
  | l :: ls, i + 1 => ((pullAt ls i).1, l :: (pullAt ls i).2)

/-- Modelled from the spec: the consumer side of a subscription stream, the
`next()` of the iterator with handle `i`; `none` when nothing is pending. -/
def PubSub.next (ps : PubSub) (i : Nat) : Option Envelope × PubSub :=
  ((pullAt ps.listeners i).1, { ps with listeners := (pullAt ps.listeners i).2 })

/-- Publish a sequence of events one after the other. -/
def PubSub.publishAll (ps : PubSub) : List (String × Envelope) → PubSub
  | [] => ps
  | (t, p) :: rest => (ps.publish t p).publishAll rest

/-- The events recorded on one topic. -/
def PubSub.publishedOn (ps : PubSub) (topic : String) : List Envelope :=
  (ps.published.filter (fun e => e.1 = topic)).map (fun e => e.2)

/-- `pubsub.publish(trigger, payload)` on the global bus. -/
def publish (trigger : String) (payload : Envelope) : M Unit := fun w =>
  (.ok (), { w with pubsub := w.pubsub.publish trigger payload })

/-- `pubsub.asyncIterator(triggers)` on the global bus; the value is the handle
of the new listener. -/
def asyncIterator (triggers : List String) : M Nat := fun w =>
  (.ok w.pubsub.listeners.length, { w with pubsub := w.pubsub.asyncIterator triggers })

/-! ## The store operations the resolvers call -/

/-- A document passes validation when each required path holds a value other
than `null`. -/
def validates (required : List String) (fields : Obj) : Bool :=
  required.all (fun k =>
    match fields.lookup k with
    | some .null => false
    | some _ => true
    | none => false)

/-- First document with the given id. -/
def findById (id : ID) : List Doc → Option Doc
  | [] => none
  | d :: ds => if d.id = id then some d else findById id ds

/-- Apply `update` to the first document with the given id; the value is the
document after the update and the new collection. -/
def updateById (id : ID) (update : Obj) : List Doc → Option (Doc × List Doc)
  | [] => none
  | d :: ds =>
    if d.id = id then
      some ({ d with fields := assign d.fields update },
            { d with fields := assign d.fields update } :: ds)
    else
      match updateById id update ds with
      | some (r, ds') => some (r, d :: ds')
      | none => none

/-- Remove the first document with the given id; the value is the removed
document and the new collection. -/
def deleteById (id : ID) : List Doc → Option (Doc × List Doc)
  | [] => none
  | d :: ds =>
    if d.id = id then some (d, ds)
    else
      match deleteById id ds with
      | some (r, ds') => some (r, d :: ds')
      | none => none

/-- Modelled from the spec: `new Model(args)`, a document built in memory with
a freshly assigned id; the store is not contacted. -/
def Model.new (_m : Model) (args : Obj) : M Doc := fun w =>
  (.ok { id := w.nextId, fields := args }, { w with nextId := w.nextId + 1 })

/-- Modelled from the spec: `doc.save()`.  It throws when validation fails or
the store is unreachable and then writes nothing; otherwise the document is
added to the collection. -/
def Model.save (m : Model) (doc : Doc) : M Unit := fun w =>
  if validates (w.store.required m) doc.fields = false then (.error .validationFailure, w)
  else if w.store.available = false then (.error .storeUnavailable, w)
  else (.ok (), { w with store := w.store.setDocs m (w.store.docs m ++ [doc]) })

/-- Modelled from the spec: `Model.find()`, all documents of the collection. -/
def Model.find (m : Model) : M (List Doc) := fun w =>
  if w.store.available = false then (.error .storeUnavailable, w)
  else (.ok (w.store.docs m), w)

/-- Modelled from the spec: `Model.findByIdAndUpdate(id, update, { new: true })`.
It throws when the store is unreachable, yields `null` when no document has
the id, and otherwise writes the supplied fields and yields the document as
it is after the update. -/
def Model.findByIdAndUpdate (m : Model) (id : ID) (update : Obj) : M (Option Doc) := fun w =>
  if w.store.available = false then (.error .storeUnavailable, w)
  else
    match updateById id update (w.store.docs m) with
    | none => (.ok none, w)
    | some (d, ds) => (.ok (some d), { w with store := w.store.setDocs m ds })

/-- Modelled from the spec: `Model.findByIdAndDelete(id)`.  It throws when the
store is unreachable, yields `null` when no document has the id, and otherwise
removes the document and yields it as it was. -/
def Model.findByIdAndDelete (m : Model) (id : ID) : M (Option Doc) := fun w =>
  if w.store.available = false then (.error .storeUnavailable, w)
  else
    match deleteById id (w.store.docs m) with
    | none => (.ok none, w)
    | some (d, ds) => (.ok (some d), { w with store := w.store.setDocs m ds })

/-! ## Topics and resolvers (`pubsub.js`, lines 155-209) -/

def TASK_ADDED : String := "TASK_ADDED"
def TASK_UPDATED : String := "TASK_UPDATED"
def TASK_DELETED : String := "TASK_DELETED"

/-- `Query.weeks`. -/
def weeks : M (List Doc) := Model.find .Week

/-- `Query.tasks`. -/
def tasks : M (List Doc) := Model.find .Task

/-- `Mutation.createWeek`. -/
def createWeek (args : Obj) : M Doc := do
  let newWeek ← Model.new .Week args
  Model.save .Week newWeek
  return newWeek

/-- `Mutation.updateWeek`; `args` is the rest of the argument object once `id`
is taken out. -/
def updateWeek (id : ID) (args : Obj) : M (Option Doc) := do
  let updatedWeek ← Model.findByIdAndUpdate .Week id args
  return updatedWeek

/-- `Mutation.deleteWeek`. -/
def deleteWeek (id : ID) : M (Option Doc) := do
  let deletedWeek ← Model.findByIdAndDelete .Week id
  return deletedWeek

/-- `Mutation.createTask`. -/
def createTask (args : Obj) : M Doc := do
  let newTask ← Model.new .Task args
  Model.save .Task newTask
  publish TASK_ADDED [("taskAdded", some newTask)]
  return newTask

/-- `Mutation.updateTask`; `args` is the rest of the argument object once `id`
is taken out. -/
def updateTask (id : ID) (args : Obj) : M (Option Doc) := do
  let updatedTask ← Model.findByIdAndUpdate .Task id args
  publish TASK_UPDATED [("taskUpdated", updatedTask)]
  return updatedTask

/-- `Mutation.deleteTask`. -/
def deleteTask (id : ID) : M (Option Doc) := do
  let deletedTask ← Model.findByIdAndDelete .Task id
  publish TASK_DELETED [("taskDeleted", deletedTask)]
  return deletedTask

/-- The `subscribe` function of each field of `resolvers.Subscription`. -/
def subscribe : String → Option (M Nat)
  | "taskAdded" => some (asyncIterator [TASK_ADDED])
  | "taskUpdated" => some (asyncIterator [TASK_UPDATED])
  | "taskDeleted" => some (asyncIterator [TASK_DELETED])
  | _ => none

/-! ## The schema (`typeDefs`, lines 71-151) -/

/-- Output types of the schema, as far as nullability goes. -/
inductive GType where
  | named (name : String)
  | nonNull (inner : GType)
  deriving DecidableEq, Repr

/-- Return type of each field of `type Mutation`. -/
def mutationType : String → Option GType
  | "createWeek" => some (.nonNull (.named "Week"))
  | "updateWeek" => some (.nonNull (.named "Week"))
  | "deleteWeek" => some (.nonNull (.named "Week"))
  | "createTask" => some (.nonNull (.named "Task"))
  | "updateTask" => some (.nonNull (.named "Task"))
  | "deleteTask" => some (.nonNull (.named "Task"))
  | _ => none

/-- Type of each field of `type Subscription`. -/
def subscriptionType : String → Option GType
  | "taskAdded" => some (.named "Task")
  | "taskUpdated" => some (.named "Task")
  | "taskDeleted" => some (.named "Task")
  | _ => none

/-- Name of the type under the non-null markers. -/
def GType.typeName : GType → String
  | .named n => n
  | .nonNull t => t.typeName

/-- Fields of `type Week` and `type Task` with their declared types. -/
def objectFields : String → List (String × GType)
  | "Week" =>
    [("id", .nonNull (.named "ID")), ("year", .nonNull (.named "Int")),
     ("numweek", .nonNull (.named "Int")), ("color", .nonNull (.named "String")),
     ("description", .nonNull (.named "String")), ("priority", .nonNull (.named "Int")),
     ("link", .nonNull (.named "String"))]
  | "Task" =>
    [("id", .nonNull (.named "ID")), ("yearweek", .nonNull (.named "String")),
     ("dayofweek", .nonNull (.named "String")), ("name", .nonNull (.named "String")),
     ("description", .nonNull (.named "String")), ("color", .nonNull (.named "String")),
     ("time_start", .nonNull (.named "String")), ("time_end", .nonNull (.named "String")),
     ("finished", .nonNull (.named "Int")), ("priority", .nonNull (.named "Int")),
     ("file", .named "String")]
  | _ => []

/-- The value the default field resolver reads from a document: its id under
`id`, the stored value under any other name, `null` where nothing is stored. -/
def fieldValue (d : Doc) (name : String) : Value :=
  if name = "id" then .str (toString d.id) else (d.fields.lookup name).getD .null

/-- Complete the selected fields of a document of the given object type, in
selection order: the first selected field that is declared non-null and reads
`null` is a field error.  Coercion of scalar values is not modelled. -/
def completeFields (typeName : String) (d : Doc) : List String → Except Err Unit
  | [] => .ok ()
  | f :: rest =>
    match (objectFields typeName).lookup f with
    | some (.nonNull _) =>
      if fieldValue d f = .null then .error (.nonNullViolation (typeName ++ "." ++ f))
      else completeFields typeName d rest
    | _ => completeFields typeName d rest

/-- Value completion of the GraphQL executor for a root field of the given
type and selection.  A `null` where the declared type is non-null is a field
error; a document is completed field by field.  `.error` stands for a response
that carries a field error. -/
def completeValue (field : String) (t : GType) (selection : List String) :
    Option Doc → Except Err (Option Doc)
  | none =>
    match t with
    | .nonNull _ => .error (.nonNullViolation field)
    | .named _ => .ok none
  | some d =>
    match completeFields t.typeName d selection with
    | .ok _ => .ok (some d)
    | .error e => .error e

/-- The response the caller of a mutation receives for the selected fields: a
thrown error is passed on, a returned value is completed against the declared
return type. -/
def respond (field : String) (selection : List String) (m : M (Option Doc)) :
    M (Option Doc) := fun w =>
  match m w with
  | (.error e, w') => (.error e, w')
  | (.ok r, w') =>
    match mutationType field with
    | some t => (completeValue field t selection r, w')
    | none => (.ok r, w')

/-- The value a subscription field takes from a published envelope: the
default resolver reads the key named like the field; `none` is `undefined`. -/
def resolveSubscriptionField (field : String) (payload : Envelope) : Option (Option Doc) :=
  payload.lookup field

/-- Call `next()` on the iterator with handle `i` up to `n` times, stopping
as soon as nothing is pending; the value is the events pulled, in the order
they were pulled. -/
def PubSub.nextN (ps : PubSub) (i : Nat) : Nat → List Envelope × PubSub
  | 0 => ([], ps)
  | n + 1 =>
    match (ps.next i).1 with
    | none => ([], (ps.next i).2)
    | some e => (e :: ((ps.next i).2.nextN i n).1, ((ps.next i).2.nextN i n).2)

/-- The subscription field `field` listens on `topic`: its `subscribe`
function exists and, in every world, registers one new listener whose only
topic is `topic`. -/
def listensOn (field topic : String) : Prop :=
  ∃ s : M Nat, subscribe field = some s ∧
    ∀ w : World, (s w).1 = .ok w.pubsub.listeners.length ∧
      (s w).2.pubsub.listeners = w.pubsub.listeners ++ [{ topics := [topic], queue := [] }]

/-! ## Sample worlds used to instantiate the theorems -/

/-- Arguments of a complete Task. -/
def sampleArgs : Obj :=
  [("yearweek", .str "2024-W12"), ("dayofweek", .str "mon"), ("name", .str "report"),
   ("description", .str "write it"), ("color", .str "red"), ("time_start", .str "09:00"),
   ("time_end", .str "10:00"), ("finished", .int 0), ("priority", .int 2)]

/-- A stored Task with id 4. -/
def sampleTask : Doc := { id := 4, fields := sampleArgs }

/-- A reachable store holding `sampleTask`, and one subscriber per topic. -/
def sampleWorld : World :=
  { store :=
      { available := true
        weekRequired := ["year", "numweek"]
        taskRequired := ["yearweek", "name", "priority"]
        weeks := []
        tasks := [sampleTask] }
    nextId := 5
    pubsub :=
      { listeners :=
          [{ topics := [TASK_ADDED], queue := [] },
           { topics := [TASK_UPDATED], queue := [] },
           { topics := [TASK_DELETED], queue := [] }]
        published := [] } }

/-- The same world with the store unreachable. -/
def downWorld : World :=
  { sampleWorld with store := { sampleWorld.store with available := false } }

/-! ## What one resolver call does to the world -/

theorem createTask_run (args : Obj) (w : World) :
    createTask args w =
      if validates w.store.taskRequired args = false then
        (.error .validationFailure, { w with nextId := w.nextId + 1 })
      else if w.store.available = false then
        (.error .storeUnavailable, { w with nextId := w.nextId + 1 })
      else
        (.ok { id := w.nextId, fields := args },
         { store := w.store.setDocs .Task (w.store.tasks ++ [{ id := w.nextId, fields := args }])
           nextId := w.nextId + 1
           pubsub := w.pubsub.publish TASK_ADDED
             [("taskAdded", some { id := w.nextId, fields := args })] }) := by
  simp only [createTask, bind, M.bind, pure, M.pure, Model.new, Model.save, publish,
    Store.required, Store.docs]
  split_ifs <;> rfl

theorem updateTask_run (id : ID) (args : Obj) (w : World) :
    updateTask id args w =
      if w.store.available = false then (.error .storeUnavailable, w)
      else
        match updateById id args w.store.tasks with
        | none =>
          (.ok none, { w with pubsub := w.pubsub.publish TASK_UPDATED [("taskUpdated", none)] })
        | some (d, ds) =>
          (.ok (some d),
           { w with
             store := w.store.setDocs .Task ds
             pubsub := w.pubsub.publish TASK_UPDATED [("taskUpdated", some d)] }) := by
  simp only [updateTask, bind, M.bind, pure, M.pure, Model.findByIdAndUpdate, publish,
    Store.docs]
  split_ifs
  · rfl
  · cases updateById id args w.store.tasks with
    | none => rfl
    | some r => rfl

theorem deleteTask_run (id : ID) (w : World) :
    deleteTask id w =
      if w.store.available = false then (.error .storeUnavailable, w)
      else
        match deleteById id w.store.tasks with
        | none =>
          (.ok none, { w with pubsub := w.pubsub.publish TASK_DELETED [("taskDeleted", none)] })
        | some (d, ds) =>
          (.ok (some d),
           { w with
             store := w.store.setDocs .Task ds
             pubsub := w.pubsub.publish TASK_DELETED [("taskDeleted", some d)] }) := by
  simp only [deleteTask, bind, M.bind, pure, M.pure, Model.findByIdAndDelete, publish,
    Store.docs]
  split_ifs
  · rfl
  · cases deleteById id w.store.tasks with
    | none => rfl
    | some r => rfl

/-! ## Lookups in a collection -/

theorem updateById_of_findById_none (id : ID) (u : Obj) (ds : List Doc)
    (h : findById id ds = none) : updateById id u ds = none := by
  induction ds with
  | nil => rfl
  | cons d ds ih =>
    by_cases hd : d.id = id
    · simp [findById, hd] at h
    · simp only [findById, hd, if_false] at h
      simp [updateById, hd, ih h]

theorem deleteById_of_findById_none (id : ID) (ds : List Doc)
    (h : findById id ds = none) : deleteById id ds = none := by
  induction ds with
  | nil => rfl
  | cons d ds ih =>
    by_cases hd : d.id = id
    · simp [findById, hd] at h
    · simp only [findById, hd, if_false] at h
      simp [deleteById, hd, ih h]

theorem findById_id (id : ID) (ds : List Doc) (t : Doc) (h : findById id ds = some t) :
    t.id = id := by
  induction ds with
  | nil => simp [findById] at h
  | cons d ds ih =>
    by_cases hd : d.id = id
    · simp only [findById, hd, if_true, Option.some.injEq] at h
      rw [← h]; exact hd
    · simp only [findById, hd, if_false] at h
      exact ih h

theorem updateById_of_findById_some (id : ID) (u : Obj) (ds : List Doc) (t : Doc)
    (h : findById id ds = some t) :
    ∃ ds', updateById id u ds = some ({ t with fields := assign t.fields u }, ds') ∧
      findById id ds' = some { t with fields := assign t.fields u } ∧
      ds'.length = ds.length := by
  induction ds with
  | nil => simp [findById] at h
  | cons d ds ih =>
    by_cases hd : d.id = id
    · simp only [findById, hd, if_true, Option.some.injEq] at h
      subst h
      exact ⟨{ d with fields := assign d.fields u } :: ds, by simp [updateById, hd],
        by simp [findById, hd], by simp⟩
    · simp only [findById, hd, if_false] at h
      obtain ⟨ds', h1, h2, h3⟩ := ih h
      exact ⟨d :: ds', by simp [updateById, hd, h1], by simp [findById, hd, h2], by simp [h3]⟩

theorem deleteById_of_findById_some (id : ID) (ds : List Doc) (t : Doc)
    (h : findById id ds = some t) : deleteById id ds = some (t, ds.erase t) := by
  induction ds with
  | nil => simp [findById] at h
  | cons d ds ih =>
    by_cases hd : d.id = id
    · simp only [findById, hd, if_true, Option.some.injEq] at h
      subst h
      simp [deleteById, hd]
    · simp only [findById, hd, if_false] at h
      have hne : d ≠ t := by
        intro e
        exact hd (e ▸ findById_id id ds t h)
      simp [deleteById, hd, ih h, List.erase_cons_tail, hne]

/-! ## Events recorded on a topic -/

theorem publishedOn_publish (ps : PubSub) (trigger topic : String) (payload : Envelope) :
    (ps.publish trigger payload).publishedOn topic =
      if trigger = topic then ps.publishedOn topic ++ [payload] else ps.publishedOn topic := by
  by_cases h : trigger = topic <;>
    simp [PubSub.publishedOn, PubSub.publish, List.filter_append, List.filter_cons, h]

theorem TASK_ADDED_ne_TASK_UPDATED : TASK_ADDED ≠ TASK_UPDATED := by decide

theorem TASK_ADDED_ne_TASK_DELETED : TASK_ADDED ≠ TASK_DELETED := by decide

theorem TASK_UPDATED_ne_TASK_DELETED : TASK_UPDATED ≠ TASK_DELETED := by decide

/-! ## Task mutations: what is returned and what is published -/

/-- C1, the code at an id that matches no stored Task: `updateTask` and
`deleteTask` both return `null` and nevertheless record one event on their
topic, whose payload is `null`, and hand it to the subscriber of that topic. -/
theorem notFound_mutation_publishes_null_event :
    findById 9 sampleWorld.store.tasks = none ∧
    sampleWorld.pubsub.published = [] ∧
    (updateTask 9 [("priority", .int 1)] sampleWorld).1 = .ok none ∧
    (updateTask 9 [("priority", .int 1)] sampleWorld).2.pubsub.published =
      [(TASK_UPDATED, [("taskUpdated", none)])] ∧
    (updateTask 9 [("priority", .int 1)] sampleWorld).2.pubsub.listeners =
      [{ topics := [TASK_ADDED], queue := [] },
       { topics := [TASK_UPDATED], queue := [[("taskUpdated", none)]] },
       { topics := [TASK_DELETED], queue := [] }] ∧
    (deleteTask 9 sampleWorld).1 = .ok none ∧
    (deleteTask 9 sampleWorld).2.pubsub.published =
      [(TASK_DELETED, [("taskDeleted", none)])] ∧
    (deleteTask 9 sampleWorld).2.pubsub.listeners =
      [{ topics := [TASK_ADDED], queue := [] },
       { topics := [TASK_UPDATED], queue := [] },
       { topics := [TASK_DELETED], queue := [[("taskDeleted", none)]] }] := by
  decide

/-- C2: a `createTask` call whose document passes validation, against a
reachable store, returns the new document with its assigned id and the
supplied fields; the document is the one added to the Task collection and the
one a following `tasks` query lists; the call records exactly one event, on
`TASK_ADDED`, whose payload under `taskAdded` is the returned document, and
records nothing on `TASK_UPDATED` or `TASK_DELETED`. -/
theorem createTask_returns_stored_and_publishes_once (w : World) (args : Obj)
    (hv : validates w.store.taskRequired args = true) (ha : w.store.available = true) :
    ∃ newTask : Doc,
      (createTask args w).1 = .ok newTask ∧
      newTask.id = w.nextId ∧
      newTask.fields = args ∧
      (createTask args w).2.store.tasks = w.store.tasks ++ [newTask] ∧
      (tasks (createTask args w).2).1 = .ok (w.store.tasks ++ [newTask]) ∧
      (createTask args w).2.pubsub.published =
        w.pubsub.published ++ [(TASK_ADDED, [("taskAdded", some newTask)])] ∧
      resolveSubscriptionField "taskAdded" [("taskAdded", some newTask)] = some (some newTask) ∧
      (createTask args w).2.pubsub.publishedOn TASK_ADDED =
        w.pubsub.publishedOn TASK_ADDED ++ [[("taskAdded", some newTask)]] ∧
      (createTask args w).2.pubsub.publishedOn TASK_UPDATED =
        w.pubsub.publishedOn TASK_UPDATED ∧
      (createTask args w).2.pubsub.publishedOn TASK_DELETED =
        w.pubsub.publishedOn TASK_DELETED := by
  refine ⟨{ id := w.nextId, fields := args }, ?_⟩
  have hrun := createTask_run args w
  simp only [hv, ha, Bool.true_eq_false, if_false] at hrun
  rw [hrun]
  refine ⟨rfl, rfl, rfl, rfl, ?_, rfl, ?_, ?_, ?_, ?_⟩
  · simp [tasks, Model.find, Store.setDocs, Store.docs, ha]
  · simp [resolveSubscriptionField, List.lookup]
  · rw [publishedOn_publish]; simp
  · rw [publishedOn_publish]; simp [TASK_ADDED_ne_TASK_UPDATED]
  · rw [publishedOn_publish]; simp [TASK_ADDED_ne_TASK_DELETED]

/-- Instance of C2 on the sample world. -/
theorem createTask_returns_stored_and_publishes_once_witness :
    validates sampleWorld.store.taskRequired sampleArgs = true ∧
    sampleWorld.store.available = true ∧
    ∃ newTask : Doc,
      (createTask sampleArgs sampleWorld).1 = .ok newTask ∧
      newTask.id = sampleWorld.nextId ∧
      newTask.fields = sampleArgs ∧
      (createTask sampleArgs sampleWorld).2.store.tasks = sampleWorld.store.tasks ++ [newTask] ∧
      (tasks (createTask sampleArgs sampleWorld).2).1 =
        .ok (sampleWorld.store.tasks ++ [newTask]) ∧
      (createTask sampleArgs sampleWorld).2.pubsub.published =
        sampleWorld.pubsub.published ++ [(TASK_ADDED, [("taskAdded", some newTask)])] ∧
      resolveSubscriptionField "taskAdded" [("taskAdded", some newTask)] = some (some newTask) ∧
      (createTask sampleArgs sampleWorld).2.pubsub.publishedOn TASK_ADDED =
        sampleWorld.pubsub.publishedOn TASK_ADDED ++ [[("taskAdded", some newTask)]] ∧
      (createTask sampleArgs sampleWorld).2.pubsub.publishedOn TASK_UPDATED =
        sampleWorld.pubsub.publishedOn TASK_UPDATED ∧
      (createTask sampleArgs sampleWorld).2.pubsub.publishedOn TASK_DELETED =
        sampleWorld.pubsub.publishedOn TASK_DELETED :=
  ⟨by decide, by decide,
    createTask_returns_stored_and_publishes_once sampleWorld sampleArgs (by decide) (by decide)⟩

/-- C3: when the id matches a stored Task `t` and the store is reachable,
`updateTask` returns the document as it is after the update, which is also the
document now stored under that id, and records on `TASK_UPDATED` one event
whose payload is that same document; `deleteTask` returns `t` as it was
stored, removes it, and records on `TASK_DELETED` one event whose payload is
`t`. -/
theorem update_delete_event_equals_response (w : World) (id : ID) (args : Obj) (t : Doc)
    (ha : w.store.available = true) (hfind : findById id w.store.tasks = some t) :
    (∃ updatedTask : Doc,
      updatedTask = { t with fields := assign t.fields args } ∧
      (updateTask id args w).1 = .ok (some updatedTask) ∧
      findById id (updateTask id args w).2.store.tasks = some updatedTask ∧
      (updateTask id args w).2.pubsub.published =
        w.pubsub.published ++ [(TASK_UPDATED, [("taskUpdated", some updatedTask)])] ∧
      resolveSubscriptionField "taskUpdated" [("taskUpdated", some updatedTask)] =
        some (some updatedTask)) ∧
    ((deleteTask id w).1 = .ok (some t) ∧
      (deleteTask id w).2.store.tasks = w.store.tasks.erase t ∧
      (deleteTask id w).2.pubsub.published =
        w.pubsub.published ++ [(TASK_DELETED, [("taskDeleted", some t)])] ∧
      resolveSubscriptionField "taskDeleted" [("taskDeleted", some t)] = some (some t)) := by
  constructor
  · obtain ⟨ds', h1, h2, _⟩ := updateById_of_findById_some id args w.store.tasks t hfind
    refine ⟨_, rfl, ?_⟩
    have hrun := updateTask_run id args w
    simp only [ha, Bool.true_eq_false, if_false, h1] at hrun
    rw [hrun]
    refine ⟨rfl, ?_, rfl, ?_⟩
    · simpa [Store.setDocs] using h2
    · simp [resolveSubscriptionField, List.lookup]
  · have hrun := deleteTask_run id w
    simp only [ha, Bool.true_eq_false, if_false,
      deleteById_of_findById_some id w.store.tasks t hfind] at hrun
    rw [hrun]
    refine ⟨rfl, rfl, rfl, ?_⟩
    simp [resolveSubscriptionField, List.lookup]

/-- Instance of C3 on the sample world, with only `priority` supplied. -/
theorem update_delete_event_equals_response_witness :
    sampleWorld.store.available = true ∧
    findById 4 sampleWorld.store.tasks = some sampleTask ∧
    (updateTask 4 [("priority", .int 7)] sampleWorld).1 =
      .ok (some { sampleTask with fields := assign sampleTask.fields [("priority", .int 7)] }) ∧
    (deleteTask 4 sampleWorld).1 = .ok (some sampleTask) ∧
    (deleteTask 4 sampleWorld).2.pubsub.published =
      sampleWorld.pubsub.published ++ [(TASK_DELETED, [("taskDeleted", some sampleTask)])] := by
  have h := update_delete_event_equals_response sampleWorld 4 [("priority", .int 7)] sampleTask
    (by decide) (by decide)
  obtain ⟨⟨u, hu, hr, _⟩, hd, _, hp, _⟩ := h
  exact ⟨by decide, by decide, hu ▸ hr, hd, hp⟩

/-- C4: a Task mutation that throws changes neither the store nor the event
bus, and a failing store write makes it throw: `createTask` throws when the
document fails validation or the store is unreachable, `updateTask` and
`deleteTask` throw when the store is unreachable.  The write comes before the
publish, so nothing is recorded or delivered once the write has failed. -/
theorem failed_write_publishes_nothing (w : World) (args : Obj) (id : ID) :
    ((validates w.store.taskRequired args = false ∨ w.store.available = false) →
      ∃ e, (createTask args w).1 = .error e) ∧
    (w.store.available = false → (updateTask id args w).1 = .error .storeUnavailable) ∧
    (w.store.available = false → (deleteTask id w).1 = .error .storeUnavailable) ∧
    (∀ e, (createTask args w).1 = .error e →
      (createTask args w).2.store = w.store ∧ (createTask args w).2.pubsub = w.pubsub) ∧
    (∀ e, (updateTask id args w).1 = .error e →
      (updateTask id args w).2.store = w.store ∧ (updateTask id args w).2.pubsub = w.pubsub) ∧
    (∀ e, (deleteTask id w).1 = .error e →
      (deleteTask id w).2.store = w.store ∧ (deleteTask id w).2.pubsub = w.pubsub) := by
  refine ⟨?_, ?_, ?_, ?_, ?_, ?_⟩
  · intro h
    rw [createTask_run]
    by_cases hv : validates w.store.taskRequired args = false
    · exact ⟨.validationFailure, by simp [hv]⟩
    · have ha : w.store.available = false := h.resolve_left hv
      exact ⟨.storeUnavailable, by simp [hv, ha]⟩
  · intro ha
    rw [updateTask_run]; simp [ha]
  · intro ha
    rw [deleteTask_run]; simp [ha]
  · intro e
    rw [createTask_run]
    split_ifs <;> simp
  · intro e
    rw [updateTask_run]
    split_ifs
    · simp
    · cases updateById id args w.store.tasks <;> simp
  · intro e
    rw [deleteTask_run]
    split_ifs
    · simp
    · cases deleteById id w.store.tasks <;> simp

/-- Instance of C4 on the world whose store is unreachable, and on a create
that lacks the required `name`. -/
theorem failed_write_publishes_nothing_witness :
    downWorld.store.available = false ∧
    validates sampleWorld.store.taskRequired [("priority", .int 1)] = false ∧
    (updateTask 4 [("priority", .int 1)] downWorld).1 = .error .storeUnavailable ∧
    (deleteTask 4 downWorld).1 = .error .storeUnavailable ∧
    (∃ e, (createTask [("priority", .int 1)] sampleWorld).1 = .error e) ∧
    ((updateTask 4 [("priority", .int 1)] downWorld).2.store = downWorld.store ∧
      (updateTask 4 [("priority", .int 1)] downWorld).2.pubsub = downWorld.pubsub) :=
  ⟨by decide, by decide,
    (failed_write_publishes_nothing downWorld [("priority", .int 1)] 4).2.1 (by decide),
    (failed_write_publishes_nothing downWorld [("priority", .int 1)] 4).2.2.1 (by decide),
    (failed_write_publishes_nothing sampleWorld [("priority", .int 1)] 4).1 (Or.inl (by decide)),
    (failed_write_publishes_nothing downWorld [("priority", .int 1)] 4).2.2.2.2.1
      .storeUnavailable (by decide)⟩

/-- C6: no Week mutation touches the event bus, whatever its arguments and
whether it succeeds, finds nothing or throws: the recorded events and every
listener queue are the same after the call as before. -/
theorem week_mutations_publish_nothing (w : World) (args : Obj) (id : ID) :
    (createWeek args w).2.pubsub = w.pubsub ∧
    (updateWeek id args w).2.pubsub = w.pubsub ∧
    (deleteWeek id w).2.pubsub = w.pubsub := by
  refine ⟨?_, ?_, ?_⟩
  · simp only [createWeek, bind, M.bind, pure, M.pure, Model.new, Model.save]
    split_ifs <;> rfl
  · simp only [updateWeek, bind, M.bind, pure, M.pure, Model.findByIdAndUpdate]
    split_ifs
    · rfl
    · cases updateById id args (w.store.docs .Week) <;> rfl
  · simp only [deleteWeek, bind, M.bind, pure, M.pure, Model.findByIdAndDelete]
    split_ifs
    · rfl
    · cases deleteById id (w.store.docs .Week) <;> rfl

/-! ## Partial update -/

theorem lookup_cons_eq (k a : String) (b : Value) (rest : Obj) :
    List.lookup k ((a, b) :: rest) = if k = a then some b else List.lookup k rest := by
  by_cases h : k = a
  · subst h; simp [List.lookup]
  · have hb : (k == a) = false := by simpa using h
    simp [List.lookup, hb, h]

theorem lookup_setField (o : Obj) (k k' : String) (v : Value) :
    (setField o k v).lookup k' = if k' = k then some v else o.lookup k' := by
  induction o with
  | nil =>
    show List.lookup k' [(k, v)] = _
    rw [lookup_cons_eq]
  | cons p rest ih =>
    obtain ⟨a, b⟩ := p
    by_cases ha : a = k
    · subst ha
      have hs : setField ((a, b) :: rest) a v = (a, v) :: rest := by simp [setField]
      rw [hs, lookup_cons_eq, lookup_cons_eq]
      by_cases h : k' = a <;> simp [h]
    · have hs : setField ((a, b) :: rest) k v = (a, b) :: setField rest k v := by
        simp [setField, ha]
      rw [hs, lookup_cons_eq, lookup_cons_eq, ih]
      by_cases h : k' = k
      · subst h
        have hne : ¬ k' = a := fun e => ha e.symm
        simp [hne]
      · simp [h]

theorem lookup_assign (target source : Obj) (k : String) :
    (assign target source).lookup k =
      match source.lookup k with
      | some v => some v
      | none => target.lookup k := by
  induction source with
  | nil => simp [assign, List.lookup]
  | cons p rest ih =>
    obtain ⟨a, b⟩ := p
    have hstep : assign target ((a, b) :: rest) = setField (assign target rest) a b := rfl
    rw [hstep, lookup_setField, lookup_cons_eq]
    by_cases h : k = a
    · simp [h]
    · simp [h, ih]

/-- C7: when the id matches a stored Task `t` and the store is reachable,
`updateTask` with any argument object returns a document, identical to the
payload of the one `TASK_UPDATED` event it records, that keeps the id of `t`,
holds under every key the arguments do not supply the value `t` held, and
holds under every supplied key the supplied value. -/
theorem updateTask_changes_only_supplied_fields (w : World) (id : ID) (args : Obj) (t : Doc)
    (ha : w.store.available = true) (hfind : findById id w.store.tasks = some t) :
    ∃ updatedTask : Doc,
      (updateTask id args w).1 = .ok (some updatedTask) ∧
      (updateTask id args w).2.pubsub.published =
        w.pubsub.published ++ [(TASK_UPDATED, [("taskUpdated", some updatedTask)])] ∧
      findById id (updateTask id args w).2.store.tasks = some updatedTask ∧
      updatedTask.id = t.id ∧
      (∀ k, args.lookup k = none → updatedTask.fields.lookup k = t.fields.lookup k) ∧
      (∀ k v, args.lookup k = some v → updatedTask.fields.lookup k = some v) := by
  obtain ⟨ds', h1, h2, _⟩ := updateById_of_findById_some id args w.store.tasks t hfind
  have hrun := updateTask_run id args w
  simp only [ha, Bool.true_eq_false, if_false, h1] at hrun
  refine ⟨{ t with fields := assign t.fields args }, ?_⟩
  rw [hrun]
  refine ⟨rfl, rfl, ?_, rfl, ?_, ?_⟩
  · simpa [Store.setDocs] using h2
  · intro k hk
    show (assign t.fields args).lookup k = t.fields.lookup k
    rw [lookup_assign, hk]
  · intro k v hk
    show (assign t.fields args).lookup k = some v
    rw [lookup_assign, hk]

/-- Instance of C7: only `priority` is supplied for the stored sample Task;
`name` keeps its value and `priority` takes the new one. -/
theorem updateTask_changes_only_supplied_fields_witness :
    sampleWorld.store.available = true ∧
    findById 4 sampleWorld.store.tasks = some sampleTask ∧
    ∃ updatedTask : Doc,
      (updateTask 4 [("priority", .int 7)] sampleWorld).1 = .ok (some updatedTask) ∧
      updatedTask.id = 4 ∧
      updatedTask.fields.lookup "name" = some (.str "report") ∧
      updatedTask.fields.lookup "priority" = some (.int 7) := by
  obtain ⟨u, h1, _, _, h4, h5, h6⟩ :=
    updateTask_changes_only_supplied_fields sampleWorld 4 [("priority", .int 7)] sampleTask
      (by decide) (by decide)
  refine ⟨by decide, by decide, u, h1, h4, ?_, ?_⟩
  · rw [h5 "name" (by decide)]; decide
  · exact h6 "priority" (.int 7) (by decide)

/-! ## Not found: the resolver value and the response -/

/-- C5 as stated fails: for an id that matches no stored Task the response of
`updateTask` and of `deleteTask` is an error, the non-null violation of the
declared return type `Task!`, and not a `null` result. -/
theorem notFound_response_is_error :
    findById 9 sampleWorld.store.tasks = none ∧
    mutationType "updateTask" = some (.nonNull (.named "Task")) ∧
    mutationType "deleteTask" = some (.nonNull (.named "Task")) ∧
    (respond "updateTask" ["id", "priority"]
        (updateTask 9 [("priority", .int 1)]) sampleWorld).1 =
      .error (.nonNullViolation "updateTask") ∧
    (respond "updateTask" ["id", "priority"]
        (updateTask 9 [("priority", .int 1)]) sampleWorld).1 ≠ .ok none ∧
    (respond "deleteTask" ["id"] (deleteTask 9) sampleWorld).1 =
      .error (.nonNullViolation "deleteTask") ∧
    (respond "deleteTask" ["id"] (deleteTask 9) sampleWorld).1 ≠ .ok none := by
  decide

/-- C5 amended: for an id that matches no stored Task, with the store
reachable, the resolvers `updateTask` and `deleteTask` return `null` without
throwing and leave the store as it was; whatever fields the caller selects,
the response built from that value against the declared return type `Task!`
is the non-null field error, which is never the response of a mutation that
found its Task. -/
theorem notFound_resolver_null_response_error (w : World) (id : ID) (args : Obj)
    (selection : List String)
    (ha : w.store.available = true) (hfind : findById id w.store.tasks = none) :
    (updateTask id args w).1 = .ok none ∧
    (deleteTask id w).1 = .ok none ∧
    (updateTask id args w).2.store = w.store ∧
    (deleteTask id w).2.store = w.store ∧
    (respond "updateTask" selection (updateTask id args) w).1 =
      .error (.nonNullViolation "updateTask") ∧
    (respond "deleteTask" selection (deleteTask id) w).1 =
      .error (.nonNullViolation "deleteTask") ∧
    (∀ d : Doc, (respond "updateTask" selection (updateTask id args) w).1 ≠ .ok (some d)) ∧
    (∀ d : Doc, (respond "deleteTask" selection (deleteTask id) w).1 ≠ .ok (some d)) := by
  have hu := updateTask_run id args w
  simp only [ha, Bool.true_eq_false, if_false,
    updateById_of_findById_none id args w.store.tasks hfind] at hu
  have hd := deleteTask_run id w
  simp only [ha, Bool.true_eq_false, if_false,
    deleteById_of_findById_none id w.store.tasks hfind] at hd
  have hru : (respond "updateTask" selection (updateTask id args) w).1 =
      .error (.nonNullViolation "updateTask") := by
    simp only [respond, hu]; rfl
  have hrd : (respond "deleteTask" selection (deleteTask id) w).1 =
      .error (.nonNullViolation "deleteTask") := by
    simp only [respond, hd]; rfl
  refine ⟨by rw [hu], by rw [hd], by rw [hu], by rw [hd], hru, hrd, ?_, ?_⟩
  · intro d; rw [hru]; simp
  · intro d; rw [hrd]; simp

/-- Instance of the amended C5 on the sample world, id 9. -/
theorem notFound_resolver_null_response_error_witness :
    sampleWorld.store.available = true ∧
    findById 9 sampleWorld.store.tasks = none ∧
    (updateTask 9 [] sampleWorld).1 = .ok none ∧
    (respond "deleteTask" ["id", "name"] (deleteTask 9) sampleWorld).1 =
      .error (.nonNullViolation "deleteTask") :=
  ⟨by decide, by decide,
    (notFound_resolver_null_response_error sampleWorld 9 [] ["id", "name"]
      (by decide) (by decide)).1,
    (notFound_resolver_null_response_error sampleWorld 9 [] ["id", "name"]
      (by decide) (by decide)).2.2.2.2.2.1⟩

/-- Completion reaches below the root: a found Task whose `priority` was set
to `null` answers with a field error when `priority` is selected, and with the
document when it is not. -/
theorem respond_checks_selected_fields :
    (respond "updateTask" ["id", "priority"]
        (updateTask 4 [("priority", .null)]) sampleWorld).1 =
      .error (.nonNullViolation "Task.priority") ∧
    (respond "updateTask" ["id", "name"]
        (updateTask 4 [("priority", .null)]) sampleWorld).1 =
      .ok (some { sampleTask with fields := assign sampleTask.fields [("priority", .null)] }) ∧
    (respond "updateTask" ["id", "name", "file", "priority"]
        (updateTask 4 [("priority", .int 3)]) sampleWorld).1 =
      .ok (some { sampleTask with fields := assign sampleTask.fields [("priority", .int 3)] }) := by
  decide

/-! ## Routing of events to subscribers -/

theorem deliver_singleton (T trigger : String) (payload : Envelope) (l : Listener)
    (h : l.topics = [T]) :
    Listener.deliver trigger payload l =
      if trigger = T then { l with queue := l.queue ++ [payload] } else l := by
  simp [Listener.deliver, h]

theorem publish_listeners_getElem (ps : PubSub) (trigger : String) (payload : Envelope)
    (i : Nat) (l : Listener) (h : ps.listeners[i]? = some l) :
    (ps.publish trigger payload).listeners[i]? = some (Listener.deliver trigger payload l) := by
  simp [PubSub.publish, List.getElem?_map, h]

theorem listensOn_taskAdded : listensOn "taskAdded" TASK_ADDED :=
  ⟨asyncIterator [TASK_ADDED], rfl, fun _ => ⟨rfl, rfl⟩⟩

theorem listensOn_taskUpdated : listensOn "taskUpdated" TASK_UPDATED :=
  ⟨asyncIterator [TASK_UPDATED], rfl, fun _ => ⟨rfl, rfl⟩⟩

theorem listensOn_taskDeleted : listensOn "taskDeleted" TASK_DELETED :=
  ⟨asyncIterator [TASK_DELETED], rfl, fun _ => ⟨rfl, rfl⟩⟩

theorem listensOn_unique (w : World) (field topic topic' : String)
    (h : listensOn field topic) (h' : listensOn field topic') : topic = topic' := by
  obtain ⟨s, hs, hw⟩ := h
  obtain ⟨s', hs', hw'⟩ := h'
  have e : s = s' := Option.some.inj (hs.symm.trans hs')
  subst e
  have h1 := (hw w).2
  rw [(hw' w).2] at h1
  have h2 := List.append_cancel_left h1
  simp only [List.cons.injEq, Listener.mk.injEq, and_true] at h2
  exact h2.symm

/-- C8: the three topics are pairwise distinct; each subscription field
registers a listener on one topic only, `taskAdded` on `TASK_ADDED`,
`taskUpdated` on `TASK_UPDATED`, `taskDeleted` on `TASK_DELETED`; and a
listener registered on the single topic `T` receives the event of a
`createTask` call exactly when `T` is `TASK_ADDED`, that of an `updateTask`
call exactly when `T` is `TASK_UPDATED`, and that of a `deleteTask` call
exactly when `T` is `TASK_DELETED`, and is left as it was otherwise and when
the call throws. -/
theorem subscriptions_listen_on_their_mutation_topic (w : World) (args : Obj) (id : ID)
    (i : Nat) (l : Listener) (T : String)
    (hl : w.pubsub.listeners[i]? = some l) (hT : l.topics = [T]) :
    (TASK_ADDED ≠ TASK_UPDATED ∧ TASK_ADDED ≠ TASK_DELETED ∧ TASK_UPDATED ≠ TASK_DELETED) ∧
    (listensOn "taskAdded" TASK_ADDED ∧ listensOn "taskUpdated" TASK_UPDATED ∧
      listensOn "taskDeleted" TASK_DELETED) ∧
    (∀ field topic topic', listensOn field topic → listensOn field topic' → topic = topic') ∧
    (createTask args w).2.pubsub.listeners[i]? =
      some (match (createTask args w).1 with
        | .ok d =>
          if T = TASK_ADDED then { l with queue := l.queue ++ [[("taskAdded", some d)]] } else l
        | .error _ => l) ∧
    (updateTask id args w).2.pubsub.listeners[i]? =
      some (match (updateTask id args w).1 with
        | .ok r =>
          if T = TASK_UPDATED then { l with queue := l.queue ++ [[("taskUpdated", r)]] } else l
        | .error _ => l) ∧
    (deleteTask id w).2.pubsub.listeners[i]? =
      some (match (deleteTask id w).1 with
        | .ok r =>
          if T = TASK_DELETED then { l with queue := l.queue ++ [[("taskDeleted", r)]] } else l
        | .error _ => l) := by
  refine ⟨⟨TASK_ADDED_ne_TASK_UPDATED, TASK_ADDED_ne_TASK_DELETED,
    TASK_UPDATED_ne_TASK_DELETED⟩,
    ⟨listensOn_taskAdded, listensOn_taskUpdated, listensOn_taskDeleted⟩,
    fun field topic topic' => listensOn_unique w field topic topic', ?_, ?_, ?_⟩
  · have hrun := createTask_run args w
    by_cases hv : validates w.store.taskRequired args = false
    · simp only [hv, ↓reduceIte] at hrun
      rw [hrun]; exact hl
    · by_cases ha : w.store.available = false
      · simp only [hv, ha, ↓reduceIte] at hrun
        rw [hrun]; exact hl
      · simp only [hv, ha, ↓reduceIte] at hrun
        rw [hrun]
        show (w.pubsub.publish TASK_ADDED _).listeners[i]? = _
        rw [publish_listeners_getElem _ _ _ i l hl, deliver_singleton T _ _ l hT]
        by_cases h : T = TASK_ADDED
        · subst h; simp
        · have h' : ¬ TASK_ADDED = T := fun e => h e.symm
          simp [h, h']
  · have hrun := updateTask_run id args w
    by_cases ha : w.store.available = false
    · simp only [ha, ↓reduceIte] at hrun
      rw [hrun]; exact hl
    · simp only [ha, ↓reduceIte] at hrun
      rw [hrun]
      cases updateById id args w.store.tasks with
      | none =>
        show (w.pubsub.publish TASK_UPDATED _).listeners[i]? = _
        rw [publish_listeners_getElem _ _ _ i l hl, deliver_singleton T _ _ l hT]
        by_cases h : T = TASK_UPDATED
        · subst h; simp
        · have h' : ¬ TASK_UPDATED = T := fun e => h e.symm
          simp [h, h']
      | some r =>
        show (w.pubsub.publish TASK_UPDATED _).listeners[i]? = _
        rw [publish_listeners_getElem _ _ _ i l hl, deliver_singleton T _ _ l hT]
        by_cases h : T = TASK_UPDATED
        · subst h; simp
        · have h' : ¬ TASK_UPDATED = T := fun e => h e.symm
          simp [h, h']
  · have hrun := deleteTask_run id w
    by_cases ha : w.store.available = false
    · simp only [ha, ↓reduceIte] at hrun
      rw [hrun]; exact hl
    · simp only [ha, ↓reduceIte] at hrun
      rw [hrun]
      cases deleteById id w.store.tasks with
      | none =>
        show (w.pubsub.publish TASK_DELETED _).listeners[i]? = _
        rw [publish_listeners_getElem _ _ _ i l hl, deliver_singleton T _ _ l hT]
        by_cases h : T = TASK_DELETED
        · subst h; simp
        · have h' : ¬ TASK_DELETED = T := fun e => h e.symm
          simp [h, h']
      | some r =>
        show (w.pubsub.publish TASK_DELETED _).listeners[i]? = _
        rw [publish_listeners_getElem _ _ _ i l hl, deliver_singleton T _ _ l hT]
        by_cases h : T = TASK_DELETED
        · subst h; simp
        · have h' : ¬ TASK_DELETED = T := fun e => h e.symm
          simp [h, h']

/-- Instance of C8: in the sample world the subscriber at handle 1 listens on
`TASK_UPDATED` only; a `createTask` call leaves it untouched. -/
theorem subscriptions_listen_on_their_mutation_topic_witness :
    sampleWorld.pubsub.listeners[1]? = some { topics := [TASK_UPDATED], queue := [] } ∧
    (createTask sampleArgs sampleWorld).2.pubsub.listeners[1]? =
      some (match (createTask sampleArgs sampleWorld).1 with
        | .ok d =>
          if TASK_UPDATED = TASK_ADDED then
            { topics := [TASK_UPDATED], queue := [] ++ [[("taskAdded", some d)]] }
          else { topics := [TASK_UPDATED], queue := [] }
        | .error _ => { topics := [TASK_UPDATED], queue := [] }) :=
  ⟨by decide,
    (subscriptions_listen_on_their_mutation_topic sampleWorld sampleArgs 4 1
      { topics := [TASK_UPDATED], queue := [] } TASK_UPDATED (by decide) rfl).2.2.2.1⟩

/-! ## Envelopes -/

/-- Every event a Task mutation records is an envelope with a single key; the
key is the subscription field that listens on the event's topic, the value
under it is what the mutation returns (for `createTask`, and for `updateTask`
and `deleteTask` on an id that is found, a Task document), and reading the
envelope under that key yields this value, never `undefined`.  A call that
returns records exactly one such event. -/
theorem published_envelope_key_is_subscription_field (w : World) (args : Obj) (id : ID) :
    (∃ evs, (createTask args w).2.pubsub.published = w.pubsub.published ++ evs ∧
      (∀ d, (createTask args w).1 = .ok d → evs.length = 1) ∧
      ∀ topic env, (topic, env) ∈ evs →
        ∃ field d, env = [(field, some d)] ∧ (createTask args w).1 = .ok d ∧
          listensOn field topic ∧ resolveSubscriptionField field env = some (some d)) ∧
    (∃ evs, (updateTask id args w).2.pubsub.published = w.pubsub.published ++ evs ∧
      (∀ r, (updateTask id args w).1 = .ok r → evs.length = 1) ∧
      ∀ topic env, (topic, env) ∈ evs →
        ∃ field value, env = [(field, value)] ∧ (updateTask id args w).1 = .ok value ∧
          listensOn field topic ∧ resolveSubscriptionField field env = some value ∧
          (∀ t, findById id w.store.tasks = some t → ∃ d, value = some d)) ∧
    (∃ evs, (deleteTask id w).2.pubsub.published = w.pubsub.published ++ evs ∧
      (∀ r, (deleteTask id w).1 = .ok r → evs.length = 1) ∧
      ∀ topic env, (topic, env) ∈ evs →
        ∃ field value, env = [(field, value)] ∧ (deleteTask id w).1 = .ok value ∧
          listensOn field topic ∧ resolveSubscriptionField field env = some value ∧
          (∀ t, findById id w.store.tasks = some t → ∃ d, value = some d)) := by
  refine ⟨?_, ?_, ?_⟩
  · have hrun := createTask_run args w
    by_cases hv : validates w.store.taskRequired args = false
    · simp only [hv, ↓reduceIte] at hrun
      rw [hrun]
      exact ⟨[], by simp, by simp, by simp⟩
    · by_cases ha : w.store.available = false
      · simp only [hv, ha, ↓reduceIte] at hrun
        rw [hrun]
        exact ⟨[], by simp, by simp, by simp⟩
      · simp only [hv, ha, ↓reduceIte] at hrun
        rw [hrun]
        refine ⟨[(TASK_ADDED, [("taskAdded", some { id := w.nextId, fields := args })])],
          rfl, fun _ _ => rfl, ?_⟩
        intro topic env hmem
        simp only [List.mem_singleton, Prod.mk.injEq] at hmem
        obtain ⟨ht, he⟩ := hmem
        subst ht; subst he
        exact ⟨"taskAdded", _, rfl, rfl, listensOn_taskAdded,
          by simp [resolveSubscriptionField, List.lookup]⟩
  · have hrun := updateTask_run id args w
    by_cases ha : w.store.available = false
    · simp only [ha, ↓reduceIte] at hrun
      rw [hrun]
      exact ⟨[], by simp, by simp, by simp⟩
    · simp only [ha, ↓reduceIte] at hrun
      rw [hrun]
      cases hu : updateById id args w.store.tasks with
      | none =>
        refine ⟨[(TASK_UPDATED, [("taskUpdated", none)])], rfl, fun _ _ => rfl, ?_⟩
        intro topic env hmem
        simp only [List.mem_singleton, Prod.mk.injEq] at hmem
        obtain ⟨ht, he⟩ := hmem
        subst ht; subst he
        refine ⟨"taskUpdated", none, rfl, rfl, listensOn_taskUpdated,
          by simp [resolveSubscriptionField, List.lookup], ?_⟩
        intro t hfind
        obtain ⟨ds', h1, _⟩ := updateById_of_findById_some id args w.store.tasks t hfind
        rw [h1] at hu
        exact absurd hu (by simp)
      | some r =>
        obtain ⟨d, ds⟩ := r
        refine ⟨[(TASK_UPDATED, [("taskUpdated", some d)])], rfl, fun _ _ => rfl, ?_⟩
        intro topic env hmem
        simp only [List.mem_singleton, Prod.mk.injEq] at hmem
        obtain ⟨ht, he⟩ := hmem
        subst ht; subst he
        exact ⟨"taskUpdated", some d, rfl, rfl, listensOn_taskUpdated,
          by simp [resolveSubscriptionField, List.lookup], fun _ _ => ⟨d, rfl⟩⟩
  · have hrun := deleteTask_run id w
    by_cases ha : w.store.available = false
    · simp only [ha, ↓reduceIte] at hrun
      rw [hrun]
      exact ⟨[], by simp, by simp, by simp⟩
    · simp only [ha, ↓reduceIte] at hrun
      rw [hrun]
      cases hu : deleteById id w.store.tasks with
      | none =>
        refine ⟨[(TASK_DELETED, [("taskDeleted", none)])], rfl, fun _ _ => rfl, ?_⟩
        intro topic env hmem
        simp only [List.mem_singleton, Prod.mk.injEq] at hmem
        obtain ⟨ht, he⟩ := hmem
        subst ht; subst he
        refine ⟨"taskDeleted", none, rfl, rfl, listensOn_taskDeleted,
          by simp [resolveSubscriptionField, List.lookup], ?_⟩
        intro t hfind
        rw [deleteById_of_findById_some id w.store.tasks t hfind] at hu
        exact absurd hu (by simp)
      | some r =>
        obtain ⟨d, ds⟩ := r
        refine ⟨[(TASK_DELETED, [("taskDeleted", some d)])], rfl, fun _ _ => rfl, ?_⟩
        intro topic env hmem
        simp only [List.mem_singleton, Prod.mk.injEq] at hmem
        obtain ⟨ht, he⟩ := hmem
        subst ht; subst he
        exact ⟨"taskDeleted", some d, rfl, rfl, listensOn_taskDeleted,
          by simp [resolveSubscriptionField, List.lookup], fun _ _ => ⟨d, rfl⟩⟩

/-- On the sample world: what `deleteTask` of the stored Task records is one
envelope, keyed by a field listening on its topic. -/
theorem published_envelope_key_is_subscription_field_on_sample :
    ∃ evs, (deleteTask 4 sampleWorld).2.pubsub.published = sampleWorld.pubsub.published ++ evs ∧
      (∀ r, (deleteTask 4 sampleWorld).1 = .ok r → evs.length = 1) ∧
      ∀ topic env, (topic, env) ∈ evs →
        ∃ field value, env = [(field, value)] ∧ (deleteTask 4 sampleWorld).1 = .ok value ∧
          listensOn field topic ∧ resolveSubscriptionField field env = some value ∧
          (∀ t, findById 4 sampleWorld.store.tasks = some t → ∃ d, value = some d) :=
  (published_envelope_key_is_subscription_field sampleWorld [] 4).2.2

/-- C10, the code at an id that matches no stored Task: the envelope handed
to `publish` has the single key of the subscription field listening on the
topic, but the value under it is `null` and not a Task entity; the subscriber
of that field pulls this envelope and reads `null` under its key.  At the id
of the stored Task the value is that Task. -/
theorem notFound_envelope_value_is_null :
    findById 9 sampleWorld.store.tasks = none ∧
    (updateTask 9 [("name", .str "renamed")] sampleWorld).2.pubsub.published =
      [(TASK_UPDATED, [("taskUpdated", none)])] ∧
    ((updateTask 9 [("name", .str "renamed")] sampleWorld).2.pubsub.next 1).1 =
      some [("taskUpdated", none)] ∧
    resolveSubscriptionField "taskUpdated" [("taskUpdated", none)] = some none ∧
    (deleteTask 9 sampleWorld).2.pubsub.published =
      [(TASK_DELETED, [("taskDeleted", none)])] ∧
    ((deleteTask 9 sampleWorld).2.pubsub.next 2).1 = some [("taskDeleted", none)] ∧
    resolveSubscriptionField "taskDeleted" [("taskDeleted", none)] = some none ∧
    findById 4 sampleWorld.store.tasks = some sampleTask ∧
    (deleteTask 4 sampleWorld).2.pubsub.published =
      [(TASK_DELETED, [("taskDeleted", some sampleTask)])] ∧
    resolveSubscriptionField "taskDeleted" [("taskDeleted", some sampleTask)] =
      some (some sampleTask) := by
  refine ⟨?_, ?_, ?_, ?_, ?_, ?_, ?_, ?_, ?_, ?_⟩ <;> decide

/-! ## Broadcast in publish order -/

theorem publishAll_listeners (ps : PubSub) (evs : List (String × Envelope)) :
    (ps.publishAll evs).listeners =
      ps.listeners.map (fun l =>
        { l with
          queue := l.queue ++
            (evs.filter (fun e => decide (e.1 ∈ l.topics))).map (fun e => e.2) }) := by
  induction evs generalizing ps with
  | nil => simp [PubSub.publishAll]
  | cons e rest ih =>
    obtain ⟨t, p⟩ := e
    show ((ps.publish t p).publishAll rest).listeners = _
    rw [ih]
    simp only [PubSub.publish, List.map_map]
    apply List.map_congr_left
    intro l _
    by_cases h : t ∈ l.topics <;> simp [Listener.deliver, h, List.filter_cons]

theorem pullAt_other (ls : List Listener) (i j : Nat) (h : j ≠ i) :
    (pullAt ls i).2[j]? = ls[j]? := by
  induction ls generalizing i j with
  | nil => simp [pullAt]
  | cons l ls ih =>
    cases i with
    | zero =>
      cases j with
      | zero => exact absurd rfl h
      | succ j =>
        cases hq : l.queue <;> simp [pullAt, hq]
    | succ i =>
      cases j with
      | zero => simp [pullAt]
      | succ j =>
        have hne : j ≠ i := fun e => h (by rw [e])
        simpa [pullAt] using ih i j hne

theorem pullAt_self_cons (ls : List Listener) (i : Nat) (l : Listener) (e : Envelope)
    (q : List Envelope) (hl : ls[i]? = some l) (hq : l.queue = e :: q) :
    (pullAt ls i).1 = some e ∧ (pullAt ls i).2[i]? = some { l with queue := q } := by
  induction ls generalizing i with
  | nil => simp at hl
  | cons a ls ih =>
    cases i with
    | zero =>
      simp only [List.getElem?_cons_zero, Option.some.injEq] at hl
      subst hl
      simp [pullAt, hq]
    | succ i =>
      simp only [List.getElem?_cons_succ] at hl
      simpa [pullAt] using ih i hl

theorem nextN_drains (i : Nat) (q : List Envelope) :
    ∀ (ps : PubSub) (l : Listener), ps.listeners[i]? = some l → l.queue = q →
      (ps.nextN i q.length).1 = q := by
  induction q with
  | nil => intro ps l _ _; rfl
  | cons e q ih =>
    intro ps l hl hq
    obtain ⟨h1, h2⟩ := pullAt_self_cons ps.listeners i l e q hl hq
    have hn : (ps.next i).1 = some e := h1
    have hrest := ih (ps.next i).2 { l with queue := q } h2 rfl
    show (PubSub.nextN ps i (q.length + 1)).1 = e :: q
    simp only [PubSub.nextN, hn, hrest]

/-- C9: after a sequence of publishes on topic `T`, every listener that was
registered before them and listens on `T` holds, behind what was already
pending, exactly the published payloads, each once and in publish order;
pulling events from that listener yields them in this order; no listener is
added or removed; and a pull by one listener leaves every other listener's
pending events as they were. -/
theorem broadcast_in_publish_order (ps : PubSub) (T : String) (payloads : List Envelope)
    (i : Nat) (l : Listener) (hl : ps.listeners[i]? = some l) (hT : T ∈ l.topics) :
    (ps.publishAll (payloads.map (fun p => (T, p)))).listeners.length = ps.listeners.length ∧
    (ps.publishAll (payloads.map (fun p => (T, p)))).listeners[i]? =
      some { l with queue := l.queue ++ payloads } ∧
    ((ps.publishAll (payloads.map (fun p => (T, p)))).nextN i
        (l.queue ++ payloads).length).1 = l.queue ++ payloads ∧
    (∀ j, j ≠ i →
      ((ps.publishAll (payloads.map (fun p => (T, p)))).next i).2.listeners[j]? =
        (ps.publishAll (payloads.map (fun p => (T, p)))).listeners[j]?) := by
  have hfilter : ((payloads.map (fun p => (T, p))).filter
      (fun e => decide (e.1 ∈ l.topics))).map (fun e => e.2) = payloads := by
    induction payloads with
    | nil => rfl
    | cons p ps' ih => simp [List.filter_cons, hT, ih]
  have hi : (ps.publishAll (payloads.map (fun p => (T, p)))).listeners[i]? =
      some { l with queue := l.queue ++ payloads } := by
    rw [publishAll_listeners, List.getElem?_map, hl]
    simp only [Option.map_some', hfilter]
  refine ⟨?_, hi, ?_, ?_⟩
  · rw [publishAll_listeners, List.length_map]
  · exact nextN_drains i _ _ _ hi rfl
  · intro j hj
    exact pullAt_other _ i j hj

/-- Instance of C9: two publishes on `TASK_ADDED` reach the sample world's
`TASK_ADDED` subscriber in order. -/
theorem broadcast_in_publish_order_witness :
    sampleWorld.pubsub.listeners[0]? = some { topics := [TASK_ADDED], queue := [] } ∧
    TASK_ADDED ∈ [TASK_ADDED] ∧
    (sampleWorld.pubsub.publishAll
      ([[("taskAdded", some sampleTask)], [("taskAdded", none)]].map
        (fun p => (TASK_ADDED, p)))).listeners[0]? =
      some { topics := [TASK_ADDED],
             queue := [] ++ [[("taskAdded", some sampleTask)], [("taskAdded", none)]] } :=
  ⟨by decide, by decide,
    (broadcast_in_publish_order sampleWorld.pubsub TASK_ADDED
      [[("taskAdded", some sampleTask)], [("taskAdded", none)]] 0
      { topics := [TASK_ADDED], queue := [] } (by decide) (by decide)).2.1⟩

end Pubsub
